import Mathlib

set_option maxHeartbeats 1000000

/-!
Shallow embedding of the deep-research-agent orchestration core
(`research_manager.py`, `deep_research.py`, and the pydantic data model of
`planner_agent.py`, `writer_agent.py`, `evaluator_agent.py`).

External collaborators (the LLM reasoning calls, the web-search tool and the
e-mail delivery tool) are modelled as an oracle (`RunOracle`): each call site
of `Runner.run` is given its outcome by the oracle, `Except.error` standing
for a raised exception.  Universally quantifying over the oracle quantifies
over every possible behaviour of those external services.  The async
fan-out/fan-in of `_perform_searches` is modelled by giving the oracle the
per-task outcomes in completion order; `asyncio.as_completed` makes that
order an arbitrary permutation of the per-item outcomes.
-/

/-- One planned web search.  Source: `planner_agent.py`, `class WebSearchItem`. -/
structure WebSearchItem where
  reason : String
  query : String
  deriving DecidableEq

/-- A search plan.  Source: `planner_agent.py`, `class WebSearchPlan`. -/
structure WebSearchPlan where
  searches : List WebSearchItem
  deriving DecidableEq

/-- The writer's report.  Source: `writer_agent.py`, `class ReportData`. -/
structure ReportData where
  short_summary : String
  markdown_report : String
  follow_up_questions : List String
  deriving DecidableEq

/-- The evaluator's verdict.  Source: `evaluator_agent.py`, `class EvaluationResult`. -/
structure EvaluationResult where
  completeness_score : Int
  depth_score : Int
  accuracy_score : Int
  structure_score : Int
  insight_score : Int
  summary_of_evaluation : String
  is_acceptable : Bool
  gaps : List String
  additional_search_queries : List String
  revision_instructions : String
  deriving DecidableEq

/-- An event yielded by `ResearchManager.run`: the tagged dictionaries
`{"type": "status" | "report" | "follow_up", "content": ...}` of
`research_manager.py`. -/
inductive Event where
  | status (content : String)
  | report (content : String)
  | followUp (content : List String)
  deriving DecidableEq

/-- True exactly on `status` events. -/
def Event.isStatus : Event → Bool
  | Event.status _ => true
  | Event.report _ => false
  | Event.followUp _ => false

/-- True exactly on `report` events. -/
def Event.isReport : Event → Bool
  | Event.status _ => false
  | Event.report _ => true
  | Event.followUp _ => false

/-- True exactly on `follow_up` events. -/
def Event.isFollowUp : Event → Bool
  | Event.status _ => false
  | Event.report _ => false
  | Event.followUp _ => true

/-- How one invocation of `ResearchManager.run` ends: the async generator
either runs to completion (after yielding the terminal events) or an
exception propagates out of it. -/
inductive Outcome where
  | completed (report : ReportData)
  | raised
  deriving DecidableEq

/-- Outcomes of every external call made during one `ResearchManager.run`.
`Except.error ()` models the call raising an exception.  `initialOutcomes`
and `refineOutcomes i` list, in completion order, the per-task results of
`_perform_searches` (`none` = that `_search` caught an exception and
returned `None`). -/
structure RunOracle where
  traceId : String
  planOutcome : Except Unit WebSearchPlan
  initialOutcomes : List (Option String)
  writeOutcome : Nat → Except Unit ReportData
  evalOutcome : Nat → Except Unit EvaluationResult
  refinePlanOutcome : Nat → Except Unit WebSearchPlan
  refineOutcomes : Nat → List (Option String)
  emailOk : Bool

/-- Source: `research_manager.py` line 17, `MAX_RESEARCH_ITERATIONS = 3`. -/
def MAX_RESEARCH_ITERATIONS : Nat := 3

/-- Python `s[:n]` (slice of the first `n` code points). -/
def strSlice (s : String) (n : Nat) : String := String.mk (s.data.take n)

/-- Python `s.strip()`: drop leading and trailing whitespace (code points). -/
def pyStrip (s : String) : String :=
  String.mk
    (((s.data.dropWhile Char.isWhitespace).reverse.dropWhile Char.isWhitespace).reverse)

/-- Python `s.lower()` restricted to the ASCII case folding the embedded code
compares against (the literal `"skip"`). -/
def pyLower (s : String) : String := String.mk (s.data.map Char.toLower)

/-- Python `len(s.split())`: number of maximal whitespace-free words. -/
def wordCount (s : String) : Nat :=
  ((s.data.splitOnP Char.isWhitespace).filter (fun w => w ≠ [])).length

/-- Embeds `ResearchManager._perform_searches` (lines 196-209): the argument
is the per-task outcome list in completion order (each `_search` task yields
its summary, or `None` after catching an exception); the body appends every
non-`None` result, so the output is `filterMap id`. -/
def perform_searches (completed : List (Option String)) : List String :=
  completed.filterMap id

/-- Embeds the enriched-query construction of `ResearchManager.run`
(lines 60-67): a labeled block is appended exactly when
`clarification_answers` is truthy (non-empty). -/
def enrichedQuery (query : String) (clarification_answers : String) : String :=
  if clarification_answers ≠ "" then
    ("Original query: " ++ query ++ "\n\nAdditional context from user:\n"
      ++ clarification_answers)
  else query

/-- Embeds the clarifying-phase answer handling of `deep_research.py`
(lines 49-52): a trimmed, lowercased `"skip"` means empty answers. -/
def clarificationAnswersOf (user_message : String) : String :=
  if pyLower (pyStrip user_message) = "skip" then "" else user_message

/-- The scores line of the evaluation status event
(`research_manager.py` lines 106-112). -/
def scoresLine (evaluation : EvaluationResult) : String :=
  "Completeness: " ++ toString evaluation.completeness_score ++ "/10 | "
    ++ "Depth: " ++ toString evaluation.depth_score ++ "/10 | "
    ++ "Accuracy: " ++ toString evaluation.accuracy_score ++ "/10 | "
    ++ "Structure: " ++ toString evaluation.structure_score ++ "/10 | "
    ++ "Insight: " ++ toString evaluation.insight_score ++ "/10"

/-- Embeds the prompt view of the search results built by
`ResearchManager._evaluate_report` (line 257): `"\n---\n".join(search_results[:8])`. -/
def evalSearchSummary (search_results : List String) : String :=
  String.intercalate ("\n---\n") (search_results.take 8)

/-- Embeds the full evaluator prompt of `ResearchManager._evaluate_report`
(lines 257-262), including the `[:5000]` hard cap on the summary. -/
def evaluate_input (query : String) (report : ReportData)
    (search_results : List String) : String :=
  "Original query: " ++ query ++ "\n\n--- REPORT TO EVALUATE ---\n"
    ++ report.markdown_report ++ "\n\n--- SEARCH RESULTS USED ---\n"
    ++ strSlice (evalSearchSummary search_results) 5000

/-- Embeds the prompt view of the existing results built by
`ResearchManager._plan_refinement_searches` (line 181):
`"\n---\n".join(existing_results[:5])`. -/
def refinementExistingSummary (existing_results : List String) : String :=
  String.intercalate ("\n---\n") (existing_results.take 5)

/-- Embeds the refinement-planner prompt of
`ResearchManager._plan_refinement_searches` (lines 181-190), including the
`[:3000]` hard cap on the existing-research summary. -/
def refinement_input (query : String) (evaluation : EvaluationResult)
    (existing_results : List String) : String :=
  "Original query: " ++ query ++ "\n\nThe evaluator identified these gaps:\n"
    ++ String.intercalate ("\n") (evaluation.gaps.map (fun g => "- " ++ g))
    ++ "\n\nEvaluator's suggested searches:\n"
    ++ String.intercalate ("\n")
        (evaluation.additional_search_queries.map (fun q => "- " ++ q))
    ++ "\n\nRevision instructions: " ++ evaluation.revision_instructions
    ++ "\n\nSummary of existing research (do NOT repeat these):\n"
    ++ strSlice (refinementExistingSummary existing_results) 3000

/-- Result of the WRITE → EVALUATE → REFINE loop of `ResearchManager.run`
(lines 90-153): the events yielded inside the loop, the iterations at which
`_write_report` was invoked, the successive values taken by
`all_search_results` after each `extend`, the final value of the `report`
variable, and whether an exception propagated out of the loop. -/
structure LoopOut where
  events : List Event
  writeIters : List Nat
  resultsHistory : List (List String)
  report : Option ReportData
  raised : Bool
  deriving DecidableEq

/-- Embeds the `for iteration in range(1, MAX_RESEARCH_ITERATIONS + 1)` loop
of `ResearchManager.run` (lines 90-153).  `iters` is the list of remaining
iteration indices, `allResults` the current `all_search_results`,
`prevEval` the current `previous_evaluation` and `rep0` the current value of
the `report` variable.  Any `Except.error` outcome of an external call makes
the exception propagate (`raised := true`), ending the event stream. -/
def runLoop (o : RunOracle) (iters : List Nat) (allResults : List String)
    (prevEval : Option EvaluationResult) (rep0 : Option ReportData) : LoopOut :=
  match iters with
  | [] => ⟨[], [], [], rep0, false⟩
  | i :: rest =>
    let ev1 := Event.status ("Writing report (iteration " ++ toString i ++ "/"
      ++ toString MAX_RESEARCH_ITERATIONS ++ ")...")
    match o.writeOutcome i with
    | Except.error _ => ⟨[ev1], [i], [], rep0, true⟩
    | Except.ok rep =>
      let ev2 := Event.status ("Draft " ++ toString i ++ " complete ("
        ++ toString (wordCount rep.markdown_report)
        ++ " words). Evaluating quality...")
      match o.evalOutcome i with
      | Except.error _ => ⟨[ev1, ev2], [i], [], some rep, true⟩
      | Except.ok evaluation =>
        let ev3 := Event.status (scoresLine evaluation ++ "\n"
          ++ evaluation.summary_of_evaluation)
        if evaluation.is_acceptable then
          ⟨[ev1, ev2, ev3, Event.status ("Report meets quality standards!")],
            [i], [], some rep, false⟩
        else if i < MAX_RESEARCH_ITERATIONS then
          let ev4 := Event.status ("Report needs improvement. Identified gaps:\n"
            ++ String.intercalate ("\n") (evaluation.gaps.map (fun g => "- " ++ g))
            ++ "\n\nPlanning additional research...")
          match o.refinePlanOutcome i with
          | Except.error _ => ⟨[ev1, ev2, ev3, ev4], [i], [], some rep, true⟩
          | Except.ok refinement_plan =>
            let ev5 := Event.status ("Executing "
              ++ toString refinement_plan.searches.length
              ++ " additional searches...")
            let new_results := perform_searches (o.refineOutcomes i)
            let all2 := allResults ++ new_results
            let ev6 := Event.status ("Now have " ++ toString all2.length
              ++ " total search results. Rewriting report...")
            let tail := runLoop o rest all2 (some evaluation) (some rep)
            ⟨[ev1, ev2, ev3, ev4, ev5, ev6] ++ tail.events,
              i :: tail.writeIters, all2 :: tail.resultsHistory,
              tail.report, tail.raised⟩
        else
          ⟨[ev1, ev2, ev3,
              Event.status ("Max iterations reached. Proceeding with current report.")],
            [i], [], some rep, false⟩

/-- The loop of one run as `ResearchManager.run` enters it:
iterations `range(1, MAX_RESEARCH_ITERATIONS + 1)`, `all_search_results`
from the initial search batch, `previous_evaluation = None`, `report = None`. -/
def runLoopOf (o : RunOracle) : LoopOut :=
  runLoop o (List.range' 1 MAX_RESEARCH_ITERATIONS)
    (perform_searches o.initialOutcomes) none none

/-- Observable trace of one `ResearchManager.run` invocation: the yielded
events, the iterations at which `_write_report` was invoked, the successive
values of `all_search_results`, the report handed to `_send_email` (if that
call was reached), whether the DELIVER phase dereferenced an absent report
(`report.markdown_report` on `None`, a Python `AttributeError`), and how the
generator ended. -/
structure RunTrace where
  events : List Event
  writeIters : List Nat
  resultsHistory : List (List String)
  emailArg : Option ReportData
  noneDeref : Bool
  outcome : Outcome
  deriving DecidableEq

/-- The status events yielded by `ResearchManager.run` before the loop
(lines 54-84): trace link, planning, plan description, search kickoff and
search completion. -/
def preEvents (o : RunOracle) (search_plan : WebSearchPlan)
    (all_search_results : List String) : List Event :=
  [Event.status ("[Trace](https://platform.openai.com/traces/trace?trace_id="
      ++ o.traceId ++ ")"),
   Event.status ("Planning research strategy..."),
   Event.status ("Planned " ++ toString search_plan.searches.length
      ++ " searches:\n"
      ++ String.intercalate ("\n")
          (search_plan.searches.map (fun s => "- " ++ s.query ++ " (" ++ s.reason ++ ")"))),
   Event.status ("Executing " ++ toString search_plan.searches.length
      ++ " searches in parallel..."),
   Event.status ("Initial search complete. Got "
      ++ toString all_search_results.length ++ " results.")]

/-- Embeds `ResearchManager.run` (`research_manager.py` lines 45-162) over
the call-outcome oracle.  The PLAN phase, each loop phase and the DELIVER
phase consult the oracle; an `Except.error` models the unhandled exception
propagating out of the async generator (no further events are yielded).
`_send_email` (lines 275-280) has no try/except, so `emailOk = false` makes
the run raise after the "Sending report via email..." status. -/
def ResearchManager.run (o : RunOracle) (query : String)
    (clarification_answers : String) : RunTrace :=
  let enriched_query := enrichedQuery query clarification_answers
  match o.planOutcome with
  | Except.error _ =>
    ⟨[Event.status ("[Trace](https://platform.openai.com/traces/trace?trace_id="
        ++ o.traceId ++ ")"),
      Event.status ("Planning research strategy...")],
      [], [], none, false, Outcome.raised⟩
  | Except.ok search_plan =>
    let all_search_results := perform_searches o.initialOutcomes
    let pre := preEvents o search_plan all_search_results
    let lp := runLoopOf o
    if lp.raised then
      ⟨pre ++ lp.events, lp.writeIters, all_search_results :: lp.resultsHistory,
        none, false, Outcome.raised⟩
    else
      let ev5 := Event.status ("Sending report via email...")
      match lp.report with
      | none =>
        ⟨pre ++ lp.events ++ [ev5], lp.writeIters,
          all_search_results :: lp.resultsHistory, none, true, Outcome.raised⟩
      | some rep =>
        if o.emailOk then
          ⟨pre ++ lp.events
              ++ [ev5, Event.status ("Email sent! Research complete."),
                  Event.report rep.markdown_report,
                  Event.followUp rep.follow_up_questions],
            lp.writeIters, all_search_results :: lp.resultsHistory,
            some rep, false, Outcome.completed rep⟩
        else
          ⟨pre ++ lp.events ++ [ev5], lp.writeIters,
            all_search_results :: lp.resultsHistory, some rep, false,
            Outcome.raised⟩

/-- Session phases of `deep_research.py` (line 9):
`"idle" → "clarifying" → "researching" → "done"`. -/
inductive Phase where
  | idle
  | clarifying
  | researching
  | done
  deriving DecidableEq

/-- Per-session state of `deep_research.py`: the `state` dictionary with keys
`"phase"`, `"query"`, `"questions"`. -/
structure SessionState where
  phase : Phase
  query : Option String := none
  questions : Option (List String) := none
  deriving DecidableEq

/-- Embeds the body of the `async for update in manager.run(...)` loop of
`handle_submit` (`deep_research.py` lines 63-88): a `status` event leaves the
state alone, a `report` event sets the phase to `done` (line 73), a
`follow_up` event sets it to `idle` (line 87). -/
def processUpdate (st : SessionState) (e : Event) : SessionState :=
  match e with
  | Event.status _ => st
  | Event.report _ => { st with phase := Phase.done }
  | Event.followUp _ => { st with phase := Phase.idle }

/-- Folds `processUpdate` over the orchestrator's event stream. -/
def processUpdates (st : SessionState) (events : List Event) : SessionState :=
  events.foldl processUpdate st

/-- Embeds the phase dispatch of `handle_submit` (`deep_research.py`
lines 19-88) for the `idle`, `clarifying` and `researching` phases.
`clarifying_questions` is the oracle outcome of `manager.clarify`.
A message in the `researching` phase matches no branch and leaves the state
unchanged. -/
def handleSubmitCore (o : RunOracle) (clarifying_questions : List String)
    (user_message : String) (st : SessionState) : SessionState :=
  match st.phase with
  | Phase.idle =>
    { phase := Phase.clarifying, query := some user_message,
      questions := some clarifying_questions }
  | Phase.clarifying =>
    let clarification_answers := clarificationAnswersOf user_message
    let st1 := { st with phase := Phase.researching }
    processUpdates st1
      (ResearchManager.run o (st.query.getD "") clarification_answers).events
  | Phase.researching => st
  | Phase.done => st

/-- Embeds `handle_submit` (`deep_research.py` lines 13-95): blank messages
are no-ops (lines 15-17); in the `done` phase the state is reset to `idle`
and the message re-dispatched (lines 90-95), which lands in the `idle`
branch. -/
def handleSubmit (o : RunOracle) (clarifying_questions : List String)
    (user_message : String) (st : SessionState) : SessionState :=
  if pyStrip user_message = "" then st
  else
    match st.phase with
    | Phase.done =>
      handleSubmitCore o clarifying_questions user_message
        { st with phase := Phase.idle }
    | _ => handleSubmitCore o clarifying_questions user_message st

/-! Concrete fixtures used by witnesses and counterexamples. -/

/-- A small report fixture. -/
def repA : ReportData :=
  { short_summary := "s", markdown_report := "body", follow_up_questions := ["f1"] }

/-- An evaluation that rejects the report. -/
def evalBad : EvaluationResult :=
  { completeness_score := 5, depth_score := 5, accuracy_score := 5,
    structure_score := 5, insight_score := 5,
    summary_of_evaluation := "needs work", is_acceptable := false,
    gaps := ["gap1"], additional_search_queries := ["more"],
    revision_instructions := "revise" }

/-- An evaluation that accepts the report. -/
def evalGood : EvaluationResult :=
  { completeness_score := 9, depth_score := 9, accuracy_score := 9,
    structure_score := 9, insight_score := 9,
    summary_of_evaluation := "great", is_acceptable := true,
    gaps := [], additional_search_queries := [],
    revision_instructions := "" }

/-- A one-item search plan. -/
def planA : WebSearchPlan := { searches := [{ reason := "reason", query := "query" }] }

/-- Oracle for a run that succeeds on the first iteration. -/
def oracleGood : RunOracle :=
  { traceId := "t", planOutcome := Except.ok planA,
    initialOutcomes := [some ("r1")],
    writeOutcome := fun _ => Except.ok repA,
    evalOutcome := fun _ => Except.ok evalGood,
    refinePlanOutcome := fun _ => Except.ok planA,
    refineOutcomes := fun _ => [some ("r2")],
    emailOk := true }

/-- Oracle whose evaluator never accepts: the run exhausts the budget. -/
def oracleAllBad : RunOracle :=
  { oracleGood with evalOutcome := fun _ => Except.ok evalBad }

/-- Oracle for a run where only the e-mail delivery fails. -/
def oracleEmailFail : RunOracle := { oracleGood with emailOk := false }

/-- Oracle whose PLAN call raises. -/
def oraclePlanFail : RunOracle := { oracleGood with planOutcome := Except.error () }

/-- Oracle whose evaluator never accepts and whose refinement searches all
fail: non-empty refinement plans that contribute no new results. -/
def oracleRefineAllFail : RunOracle :=
  { oracleAllBad with
    initialOutcomes := [some ("a")],
    refineOutcomes := fun _ => [none] }

example : (ResearchManager.run oracleGood "q" "").outcome = Outcome.completed repA := by decide
example : (ResearchManager.run oracleGood "q" "").writeIters = [1] := by decide
example : (ResearchManager.run oracleAllBad "q" "").writeIters = [1, 2, 3] := by decide
example : (ResearchManager.run oracleAllBad "q" "").emailArg = some repA := by decide
example : (ResearchManager.run oracleAllBad "q" "").resultsHistory
    = [["r1"], ["r1", "r2"], ["r1", "r2", "r2"]] := by decide
example : (ResearchManager.run oracleEmailFail "q" "").outcome = Outcome.raised := by decide
example : (ResearchManager.run oracleRefineAllFail "q" "").resultsHistory
    = [["a"], ["a"], ["a"]] := by decide
example :
    (handleSubmit oracleGood ["q1"] "skip"
      { phase := Phase.clarifying, query := some ("q"), questions := some (["q1"]) }).phase
    = Phase.idle := by decide

example : (ResearchManager.run oracleGood "q" "").events
    = [Event.status ("[Trace](https://platform.openai.com/traces/trace?trace_id=t)"),
       Event.status ("Planning research strategy..."),
       Event.status ("Planned 1 searches:\n- query (reason)"),
       Event.status ("Executing 1 searches in parallel..."),
       Event.status ("Initial search complete. Got 1 results."),
       Event.status ("Writing report (iteration 1/3)..."),
       Event.status ("Draft 1 complete (1 words). Evaluating quality..."),
       Event.status ("Completeness: 9/10 | Depth: 9/10 | Accuracy: 9/10 | Structure: 9/10 | Insight: 9/10\ngreat"),
       Event.status ("Report meets quality standards!"),
       Event.status ("Sending report via email..."),
       Event.status ("Email sent! Research complete."),
       Event.report ("body"),
       Event.followUp (["f1"])] := by decide

/-! Helper lemmas about the loop and the run. -/

/-- Every event yielded inside the WRITE/EVALUATE/REFINE loop is a status
event; `report` and `follow_up` events only appear after DELIVER. -/
theorem runLoop_events_isStatus (o : RunOracle) :
    ∀ (iters : List Nat) (allResults : List String)
      (prevEval : Option EvaluationResult) (rep0 : Option ReportData),
      ∀ e ∈ (runLoop o iters allResults prevEval rep0).events, e.isStatus = true := by
  intro iters
  induction iters with
  | nil =>
    intro allResults prevEval rep0 e he
    simp [runLoop] at he
  | cons i rest ih =>
    intro allResults prevEval rep0 e he
    cases hw : o.writeOutcome i with
    | error u =>
      simp [runLoop, hw] at he
      subst he; rfl
    | ok rep =>
      cases hev : o.evalOutcome i with
      | error u =>
        simp [runLoop, hw, hev] at he
        rcases he with he | he <;> (subst he; rfl)
      | ok evaluation =>
        cases ha : evaluation.is_acceptable with
        | true =>
          simp [runLoop, hw, hev, ha] at he
          rcases he with he | he | he | he <;> (subst he; rfl)
        | false =>
          by_cases hlt : i < MAX_RESEARCH_ITERATIONS
          · cases hrp : o.refinePlanOutcome i with
            | error u =>
              simp [runLoop, hw, hev, ha, hlt, hrp] at he
              rcases he with he | he | he | he <;> (subst he; rfl)
            | ok refinement_plan =>
              simp [runLoop, hw, hev, ha, hlt, hrp] at he
              rcases he with he | he | he | he | he | he | he
              · subst he; rfl
              · subst he; rfl
              · subst he; rfl
              · subst he; rfl
              · subst he; rfl
              · subst he; rfl
              · exact ih _ _ _ e he
          · simp [runLoop, hw, hev, ha, hlt] at he
            rcases he with he | he | he | he <;> (subst he; rfl)

/-- The iterations at which `_write_report` is invoked form a sublist of the
iteration range: each iteration writes at most once, in order. -/
theorem runLoop_writeIters_sublist (o : RunOracle) :
    ∀ (iters : List Nat) (allResults : List String)
      (prevEval : Option EvaluationResult) (rep0 : Option ReportData),
      (runLoop o iters allResults prevEval rep0).writeIters.Sublist iters := by
  intro iters
  induction iters with
  | nil => intro allResults prevEval rep0; simp [runLoop]
  | cons i rest ih =>
    intro allResults prevEval rep0
    cases hw : o.writeOutcome i with
    | error u => simp [runLoop, hw]
    | ok rep =>
      cases hev : o.evalOutcome i with
      | error u => simp [runLoop, hw, hev]
      | ok evaluation =>
        cases ha : evaluation.is_acceptable with
        | true => simp [runLoop, hw, hev, ha]
        | false =>
          by_cases hlt : i < MAX_RESEARCH_ITERATIONS
          · cases hrp : o.refinePlanOutcome i with
            | error u => simp [runLoop, hw, hev, ha, hlt, hrp]
            | ok refinement_plan =>
              simp only [runLoop, hw, hev, ha, hlt, hrp, if_true, if_false,
                Bool.false_eq_true]
              exact List.Sublist.cons₂ i (ih _ _ _)
          · simp [runLoop, hw, hev, ha, hlt]

/-- WRITE happens on the first remaining iteration unconditionally. -/
theorem runLoop_head_mem (o : RunOracle) (i : Nat) (rest : List Nat)
    (allResults : List String) (prevEval : Option EvaluationResult)
    (rep0 : Option ReportData) :
    i ∈ (runLoop o (i :: rest) allResults prevEval rep0).writeIters := by
  cases hw : o.writeOutcome i with
  | error u => simp [runLoop, hw]
  | ok rep =>
    cases hev : o.evalOutcome i with
    | error u => simp [runLoop, hw, hev]
    | ok evaluation =>
      cases ha : evaluation.is_acceptable with
      | true => simp [runLoop, hw, hev, ha]
      | false =>
        by_cases hlt : i < MAX_RESEARCH_ITERATIONS
        · cases hrp : o.refinePlanOutcome i with
          | error u => simp [runLoop, hw, hev, ha, hlt, hrp]
          | ok refinement_plan => simp [runLoop, hw, hev, ha, hlt, hrp]
        · simp [runLoop, hw, hev, ha, hlt]

/-- If the loop body ran at least once and no exception propagated, the
`report` variable holds a report (it is assigned on every iteration before
anything can fail). -/
theorem runLoop_report_isSome (o : RunOracle) :
    ∀ (iters : List Nat) (allResults : List String)
      (prevEval : Option EvaluationResult) (rep0 : Option ReportData),
      iters ≠ [] →
      (runLoop o iters allResults prevEval rep0).raised = false →
      ((runLoop o iters allResults prevEval rep0).report).isSome = true := by
  intro iters
  induction iters with
  | nil => intro allResults prevEval rep0 hne; exact absurd rfl hne
  | cons i rest ih =>
    intro allResults prevEval rep0 _ hraised
    cases hw : o.writeOutcome i with
    | error u => simp [runLoop, hw] at hraised
    | ok rep =>
      cases hev : o.evalOutcome i with
      | error u => simp [runLoop, hw, hev] at hraised
      | ok evaluation =>
        cases ha : evaluation.is_acceptable with
        | true => simp [runLoop, hw, hev, ha]
        | false =>
          by_cases hlt : i < MAX_RESEARCH_ITERATIONS
          · cases hrp : o.refinePlanOutcome i with
            | error u => simp [runLoop, hw, hev, ha, hlt, hrp] at hraised
            | ok refinement_plan =>
              simp only [runLoop, hw, hev, ha, hlt, hrp, if_true, if_false,
                Bool.false_eq_true] at hraised ⊢
              cases rest with
              | nil => simp [runLoop]
              | cons j rs => exact ih _ _ _ (by simp) hraised
          · simp [runLoop, hw, hev, ha, hlt]

/-- Each successive value of `all_search_results` (starting from the value at
loop entry) extends the previous one with exactly the successful results of
one refinement batch. -/
theorem runLoop_chain (o : RunOracle) :
    ∀ (iters : List Nat) (allResults : List String)
      (prevEval : Option EvaluationResult) (rep0 : Option ReportData),
      List.Chain' (fun a b => ∃ i, b = a ++ perform_searches (o.refineOutcomes i))
        (allResults :: (runLoop o iters allResults prevEval rep0).resultsHistory) := by
  intro iters
  induction iters with
  | nil => intro allResults prevEval rep0; simp [runLoop]
  | cons i rest ih =>
    intro allResults prevEval rep0
    cases hw : o.writeOutcome i with
    | error u => simp [runLoop, hw]
    | ok rep =>
      cases hev : o.evalOutcome i with
      | error u => simp [runLoop, hw, hev]
      | ok evaluation =>
        cases ha : evaluation.is_acceptable with
        | true => simp [runLoop, hw, hev, ha]
        | false =>
          by_cases hlt : i < MAX_RESEARCH_ITERATIONS
          · cases hrp : o.refinePlanOutcome i with
            | error u => simp [runLoop, hw, hev, ha, hlt, hrp]
            | ok refinement_plan =>
              simp only [runLoop, hw, hev, ha, hlt, hrp, if_true, if_false,
                Bool.false_eq_true]
              rw [List.chain'_cons]
              exact ⟨⟨i, rfl⟩, ih _ _ _⟩
          · simp [runLoop, hw, hev, ha, hlt]

/-- A list of status-only events contains no terminal events. -/
theorem statusOnly_filter (l : List Event) (h : ∀ e ∈ l, e.isStatus = true) :
    l.filter Event.isReport = [] ∧ l.filter Event.isFollowUp = [] := by
  induction l with
  | nil => exact ⟨rfl, rfl⟩
  | cons e t ih =>
    have he := h e (by simp)
    have ht := ih (fun x hx => h x (by simp [hx]))
    cases e with
    | status s =>
      simp [List.filter_cons, Event.isReport, Event.isFollowUp, ht.1, ht.2]
    | report s => simp [Event.isStatus] at he
    | followUp s => simp [Event.isStatus] at he

/-- When the PLAN call succeeds, the run's recorded write iterations are
exactly those of the loop (no branch after the loop changes them). -/
theorem run_writeIters_eq (o : RunOracle) (q c : String) (p : WebSearchPlan)
    (hplan : o.planOutcome = Except.ok p) :
    (ResearchManager.run o q c).writeIters = (runLoopOf o).writeIters := by
  cases hr : (runLoopOf o).raised with
  | true => simp [ResearchManager.run, hplan, hr]
  | false =>
    cases hrep : (runLoopOf o).report with
    | none => simp [ResearchManager.run, hplan, hr, hrep]
    | some rep =>
      cases hmail : o.emailOk with
      | true => simp [ResearchManager.run, hplan, hr, hrep, hmail]
      | false => simp [ResearchManager.run, hplan, hr, hrep, hmail]

/-- When the PLAN call succeeds, every event yielded inside the loop appears
in the run's event stream. -/
theorem run_mem_of_loop_mem (o : RunOracle) (q c : String) (p : WebSearchPlan)
    (hplan : o.planOutcome = Except.ok p) (e : Event)
    (he : e ∈ (runLoopOf o).events) : e ∈ (ResearchManager.run o q c).events := by
  cases hr : (runLoopOf o).raised with
  | true => simp [ResearchManager.run, hplan, hr, he]
  | false =>
    cases hrep : (runLoopOf o).report with
    | none => simp [ResearchManager.run, hplan, hr, hrep, he]
    | some rep =>
      cases hmail : o.emailOk with
      | true => simp [ResearchManager.run, hplan, hr, hrep, hmail, he]
      | false => simp [ResearchManager.run, hplan, hr, hrep, hmail, he]

/-- When the loop exits normally holding a report, the DELIVER phase hands
exactly that report to `_send_email`, whether or not the e-mail call then
succeeds. -/
theorem run_emailArg_eq (o : RunOracle) (q c : String) (p : WebSearchPlan)
    (rep : ReportData) (hplan : o.planOutcome = Except.ok p)
    (hr : (runLoopOf o).raised = false) (hrep : (runLoopOf o).report = some rep) :
    (ResearchManager.run o q c).emailArg = some rep := by
  cases hmail : o.emailOk with
  | true => simp [ResearchManager.run, hplan, hr, hrep, hmail]
  | false => simp [ResearchManager.run, hplan, hr, hrep, hmail]

/-- The pre-loop events of a run are all status events. -/
theorem preEvents_isStatus (o : RunOracle) (p : WebSearchPlan) (rs : List String) :
    ∀ e ∈ preEvents o p rs, e.isStatus = true := by
  intro e he
  simp [preEvents] at he
  rcases he with he | he | he | he | he <;> (subst he; rfl)

/-- A run that ends by raising yields only status events. -/
theorem run_raised_events_status (o : RunOracle) (q c : String)
    (h : (ResearchManager.run o q c).outcome = Outcome.raised) :
    ∀ e ∈ (ResearchManager.run o q c).events, e.isStatus = true := by
  intro e he
  cases hplan : o.planOutcome with
  | error u =>
    simp [ResearchManager.run, hplan] at he
    rcases he with he | he <;> (subst he; rfl)
  | ok p =>
    cases hr : (runLoopOf o).raised with
    | true =>
      simp only [ResearchManager.run, hplan, hr, if_true, List.mem_append] at he
      rcases he with he | he
      · exact preEvents_isStatus o p _ e he
      · exact runLoop_events_isStatus o _ _ _ _ e he
    | false =>
      cases hrep : (runLoopOf o).report with
      | none =>
        simp only [ResearchManager.run, hplan, hr, hrep, Bool.false_eq_true, if_false,
          List.mem_append, List.mem_singleton] at he
        rcases he with (he | he) | he
        · exact preEvents_isStatus o p _ e he
        · exact runLoop_events_isStatus o _ _ _ _ e he
        · subst he; rfl
      | some rep =>
        cases hmail : o.emailOk with
        | true => simp [ResearchManager.run, hplan, hr, hrep, hmail] at h
        | false =>
          simp only [ResearchManager.run, hplan, hr, hrep, hmail,
            Bool.false_eq_true, if_false, List.mem_append, List.mem_singleton] at he
          rcases he with (he | he) | he
          · exact preEvents_isStatus o p _ e he
          · exact runLoop_events_isStatus o _ _ _ _ e he
          · subst he; rfl

/-- A run that ends by raising emits neither terminal event. -/
theorem run_no_terminal_of_raised (o : RunOracle) (q c : String)
    (h : (ResearchManager.run o q c).outcome = Outcome.raised) :
    (ResearchManager.run o q c).events.filter Event.isReport = []
    ∧ (ResearchManager.run o q c).events.filter Event.isFollowUp = [] :=
  statusOnly_filter _ (run_raised_events_status o q c h)

/-- If the loop raised, the run raises with no e-mail call made. -/
theorem run_raised_of_loop (o : RunOracle) (q c : String) (p : WebSearchPlan)
    (hplan : o.planOutcome = Except.ok p) (hr : (runLoopOf o).raised = true) :
    (ResearchManager.run o q c).outcome = Outcome.raised
    ∧ (ResearchManager.run o q c).emailArg = none := by
  constructor <;> simp [ResearchManager.run, hplan, hr]

/-- Core acceptance lemma: if iteration `i` writes successfully and its
evaluation is acceptable, then whenever the loop reaches iteration `i` it
emits the success status, performs no later WRITE, and exits normally with
iteration `i`'s report. -/
theorem runLoop_accept (o : RunOracle) (i : Nat) (rep : ReportData)
    (e : EvaluationResult) (hw : o.writeOutcome i = Except.ok rep)
    (he : o.evalOutcome i = Except.ok e) (ha : e.is_acceptable = true) :
    ∀ (iters : List Nat), List.Pairwise (· < ·) iters →
      ∀ (allResults : List String) (prevEval : Option EvaluationResult)
        (rep0 : Option ReportData),
        i ∈ (runLoop o iters allResults prevEval rep0).writeIters →
        (Event.status ("Report meets quality standards!")
            ∈ (runLoop o iters allResults prevEval rep0).events
          ∧ (∀ j, i < j → j ∉ (runLoop o iters allResults prevEval rep0).writeIters)
          ∧ (runLoop o iters allResults prevEval rep0).report = some rep
          ∧ (runLoop o iters allResults prevEval rep0).raised = false) := by
  intro iters
  induction iters with
  | nil =>
    intro _ allResults prevEval rep0 hmem
    simp [runLoop] at hmem
  | cons i' rest ih =>
    intro hpair allResults prevEval rep0 hmem
    cases hw' : o.writeOutcome i' with
    | error u =>
      simp [runLoop, hw'] at hmem
      subst hmem
      rw [hw] at hw'
      exact absurd hw' (by simp)
    | ok rep' =>
      cases hev' : o.evalOutcome i' with
      | error u =>
        simp [runLoop, hw', hev'] at hmem
        subst hmem
        rw [he] at hev'
        exact absurd hev' (by simp)
      | ok e' =>
        cases ha' : e'.is_acceptable with
        | true =>
          simp [runLoop, hw', hev', ha'] at hmem
          subst hmem
          rw [hw] at hw'
          rw [he] at hev'
          injection hw' with hrep'
          injection hev' with he'
          subst hrep'
          subst he'
          refine ⟨by simp [runLoop, hw, he, ha], ?_, by simp [runLoop, hw, he, ha],
            by simp [runLoop, hw, he, ha]⟩
          intro j hj
          simp [runLoop, hw, he, ha]
          omega
        | false =>
          by_cases hlt : i' < MAX_RESEARCH_ITERATIONS
          · cases hrp' : o.refinePlanOutcome i' with
            | error u =>
              simp [runLoop, hw', hev', ha', hlt, hrp'] at hmem
              subst hmem
              rw [he] at hev'
              injection hev' with he'
              subst he'
              rw [ha] at ha'
              exact absurd ha' (by simp)
            | ok rplan =>
              simp only [runLoop, hw', hev', ha', hlt, hrp', Bool.false_eq_true,
                if_false, if_true, List.mem_cons] at hmem
              rcases hmem with hmem | hmem
              · subst hmem
                rw [he] at hev'
                injection hev' with he'
                subst he'
                rw [ha] at ha'
                exact absurd ha' (by simp)
              · have hrest := (List.pairwise_cons.mp hpair).2
                have hlt_all := (List.pairwise_cons.mp hpair).1
                have hsub := runLoop_writeIters_sublist o rest
                  (allResults ++ perform_searches (o.refineOutcomes i'))
                  (some e') (some rep')
                have hi_rest : i ∈ rest := hsub.subset hmem
                have hii : i' < i := hlt_all i hi_rest
                obtain ⟨h1, h2, h3, h4⟩ := ih hrest _ (some e') (some rep') hmem
                refine ⟨?_, ?_, ?_, ?_⟩
                · simp only [runLoop, hw', hev', ha', hlt, hrp', Bool.false_eq_true,
                    if_false, if_true, List.mem_append]
                  right
                  exact h1
                · intro j hj
                  simp only [runLoop, hw', hev', ha', hlt, hrp', Bool.false_eq_true,
                    if_false, if_true, List.mem_cons]
                  push_neg
                  exact ⟨by omega, h2 j hj⟩
                · simp only [runLoop, hw', hev', ha', hlt, hrp', Bool.false_eq_true,
                    if_false, if_true]
                  exact h3
                · simp only [runLoop, hw', hev', ha', hlt, hrp', Bool.false_eq_true,
                    if_false, if_true]
                  exact h4
          · simp [runLoop, hw', hev', ha', hlt] at hmem
            subst hmem
            rw [he] at hev'
            injection hev' with he'
            subst he'
            rw [ha] at ha'
            exact absurd ha' (by simp)

/-- Core failure lemma: if the loop reaches iteration `i` and the WRITE,
EVALUATE or REFINE-planning call of iteration `i` raises, the exception
propagates out of the loop (no retry, no recovery). -/
theorem runLoop_fail (o : RunOracle) (i : Nat) :
    ∀ (iters : List Nat) (allResults : List String)
      (prevEval : Option EvaluationResult) (rep0 : Option ReportData),
      i ∈ (runLoop o iters allResults prevEval rep0).writeIters →
      ((o.writeOutcome i = Except.error () →
          (runLoop o iters allResults prevEval rep0).raised = true)
        ∧ (∀ rep, o.writeOutcome i = Except.ok rep →
            o.evalOutcome i = Except.error () →
            (runLoop o iters allResults prevEval rep0).raised = true)
        ∧ (∀ rep e, o.writeOutcome i = Except.ok rep →
            o.evalOutcome i = Except.ok e → e.is_acceptable = false →
            i < MAX_RESEARCH_ITERATIONS →
            o.refinePlanOutcome i = Except.error () →
            (runLoop o iters allResults prevEval rep0).raised = true)) := by
  intro iters
  induction iters with
  | nil =>
    intro allResults prevEval rep0 hmem
    simp [runLoop] at hmem
  | cons i' rest ih =>
    intro allResults prevEval rep0 hmem
    cases hw' : o.writeOutcome i' with
    | error u =>
      simp [runLoop, hw'] at hmem
      subst hmem
      refine ⟨fun _ => by simp [runLoop, hw'], fun rep hwok _ => ?_, fun rep e hwok _ _ _ _ => ?_⟩
      · rw [hwok] at hw'; exact absurd hw' (by simp)
      · rw [hwok] at hw'; exact absurd hw' (by simp)
    | ok rep' =>
      cases hev' : o.evalOutcome i' with
      | error u =>
        simp [runLoop, hw', hev'] at hmem
        subst hmem
        refine ⟨fun hwe => ?_, fun rep _ _ => by simp [runLoop, hw', hev'],
          fun rep e _ hee _ _ _ => ?_⟩
        · rw [hwe] at hw'; exact absurd hw' (by simp)
        · rw [hee] at hev'; exact absurd hev' (by simp)
      | ok e' =>
        cases ha' : e'.is_acceptable with
        | true =>
          simp [runLoop, hw', hev', ha'] at hmem
          subst hmem
          refine ⟨fun hwe => ?_, fun rep hwok hee => ?_, fun rep e hwok hee hacc _ _ => ?_⟩
          · rw [hwe] at hw'; exact absurd hw' (by simp)
          · rw [hwok] at hw'
            injection hw' with h1
            rw [hee] at hev'; exact absurd hev' (by simp)
          · rw [hee] at hev'
            injection hev' with h2
            subst h2
            rw [hacc] at ha'; exact absurd ha' (by simp)
        | false =>
          by_cases hlt : i' < MAX_RESEARCH_ITERATIONS
          · cases hrp' : o.refinePlanOutcome i' with
            | error u =>
              simp [runLoop, hw', hev', ha', hlt, hrp'] at hmem
              subst hmem
              refine ⟨fun hwe => ?_, fun rep hwok hee => ?_,
                fun rep e _ _ _ _ _ => by simp [runLoop, hw', hev', ha', hlt, hrp']⟩
              · rw [hwe] at hw'; exact absurd hw' (by simp)
              · rw [hee] at hev'; exact absurd hev' (by simp)
            | ok rplan =>
              simp only [runLoop, hw', hev', ha', hlt, hrp', Bool.false_eq_true,
                if_false, if_true, List.mem_cons] at hmem
              rcases hmem with hmem | hmem
              · subst hmem
                refine ⟨fun hwe => ?_, fun rep hwok hee => ?_,
                  fun rep e hwok hee hacc _ hrpe => ?_⟩
                · rw [hwe] at hw'; exact absurd hw' (by simp)
                · rw [hee] at hev'; exact absurd hev' (by simp)
                · rw [hrpe] at hrp'; exact absurd hrp' (by simp)
              · obtain ⟨g1, g2, g3⟩ := ih _ (some e') (some rep') hmem
                refine ⟨fun hwe => ?_, fun rep hwok hee => ?_,
                  fun rep e hwok hee hacc hltm hrpe => ?_⟩
                · simp only [runLoop, hw', hev', ha', hlt, hrp', Bool.false_eq_true,
                    if_false, if_true]
                  exact g1 hwe
                · simp only [runLoop, hw', hev', ha', hlt, hrp', Bool.false_eq_true,
                    if_false, if_true]
                  exact g2 rep hwok hee
                · simp only [runLoop, hw', hev', ha', hlt, hrp', Bool.false_eq_true,
                    if_false, if_true]
                  exact g3 rep e hwok hee hacc hltm hrpe
          · simp [runLoop, hw', hev', ha', hlt] at hmem
            subst hmem
            refine ⟨fun hwe => ?_, fun rep hwok hee => ?_,
              fun rep e hwok hee hacc hltm hrpe => ?_⟩
            · rw [hwe] at hw'; exact absurd hw' (by simp)
            · rw [hee] at hev'; exact absurd hev' (by simp)
            · exact absurd hltm hlt

/-- Collecting the non-`None` outcomes keeps exactly the successful ones. -/
theorem length_filterMap_id {α : Type} (l : List (Option α)) :
    (l.filterMap id).length = l.countP (fun r => r.isSome) := by
  induction l with
  | nil => rfl
  | cons a t ih =>
    cases a <;> simp [List.filterMap_cons, List.countP_cons, ih]

/-- Successes are the total minus the failures. -/
theorem countP_isSome_sub {α : Type} (l : List (Option α)) :
    l.countP (fun r => r.isSome) = l.length - l.countP (fun r => r.isNone) := by
  induction l with
  | nil => rfl
  | cons a t ih =>
    have hle : t.countP (fun r => r.isNone) ≤ t.length := List.countP_le_length _
    cases a <;> simp [List.countP_cons, ih] <;> omega

/-- An all-`None` outcome list collects to the empty list. -/
theorem filterMap_id_all_none {α : Type} (l : List (Option α))
    (h : ∀ r ∈ l, r = none) : l.filterMap id = [] := by
  induction l with
  | nil => rfl
  | cons a t ih =>
    have ha := h a (by simp)
    subst ha
    simpa [List.filterMap_cons] using ih (fun r hr => h r (by simp [hr]))

/-- The per-run history of `all_search_results` values is a chain in which
each entry extends the previous one by the successful results of one
refinement batch. -/
theorem run_resultsHistory_chain (o : RunOracle) (q c : String) :
    List.Chain' (fun a b => ∃ i, b = a ++ perform_searches (o.refineOutcomes i))
      (ResearchManager.run o q c).resultsHistory := by
  cases hplan : o.planOutcome with
  | error u => simp [ResearchManager.run, hplan]
  | ok p =>
    have hch := runLoop_chain o (List.range' 1 MAX_RESEARCH_ITERATIONS)
      (perform_searches o.initialOutcomes) none none
    cases hr : (runLoopOf o).raised with
    | true =>
      simp only [ResearchManager.run, hplan, hr, if_true]
      exact hch
    | false =>
      cases hrep : (runLoopOf o).report with
      | none =>
        simp only [ResearchManager.run, hplan, hr, hrep, Bool.false_eq_true, if_false]
        exact hch
      | some rep =>
        cases hmail : o.emailOk with
        | true =>
          simp only [ResearchManager.run, hplan, hr, hrep, hmail,
            Bool.false_eq_true, if_false, if_true]
          exact hch
        | false =>
          simp only [ResearchManager.run, hplan, hr, hrep, hmail,
            Bool.false_eq_true, if_false]
          exact hch

/-! Claim theorems. -/

/-- C4: a clarifying-phase input that trims and lowercases to `"skip"` makes
the clarification answers empty and the enriched query equal to the original
query verbatim; any other (non-blank) clarifying-phase input produces the
labeled enriched query containing both the original query text and the
supplied clarification text. -/
theorem skip_and_enrichment (query user_message : String)
    (hne : pyStrip user_message ≠ "") :
    (pyLower (pyStrip user_message) = "skip" →
      enrichedQuery query (clarificationAnswersOf user_message) = query)
    ∧ (pyLower (pyStrip user_message) ≠ "skip" →
      (enrichedQuery query (clarificationAnswersOf user_message)
          = "Original query: " ++ query ++ "\n\nAdditional context from user:\n"
            ++ user_message
        ∧ query.data <:+: (enrichedQuery query (clarificationAnswersOf user_message)).data
        ∧ user_message.data
            <:+: (enrichedQuery query (clarificationAnswersOf user_message)).data)) := by
  constructor
  · intro hskip
    simp [clarificationAnswersOf, hskip, enrichedQuery]
  · intro hns
    have hmsg : user_message ≠ "" := by
      intro h
      subst h
      exact hne rfl
    have hca : clarificationAnswersOf user_message = user_message := by
      simp [clarificationAnswersOf, hns]
    have heq : enrichedQuery query (clarificationAnswersOf user_message)
        = "Original query: " ++ query ++ "\n\nAdditional context from user:\n"
          ++ user_message := by
      rw [hca]
      simp [enrichedQuery, hmsg]
    refine ⟨heq, ?_, ?_⟩
    · rw [heq]
      refine ⟨("Original query: ").data,
        ("\n\nAdditional context from user:\n" ++ user_message).data, ?_⟩
      simp [String.data_append, List.append_assoc]
    · rw [heq]
      refine ⟨("Original query: " ++ query
          ++ "\n\nAdditional context from user:\n").data, [], ?_⟩
      simp [String.data_append, List.append_assoc]

/-- Witness for C4 at concrete inputs: `" SKIP "` is treated as skip and the
enriched query is the original verbatim; `"focus on 2024"` produces the
labeled block containing both texts. -/
theorem skip_and_enrichment_witness :
    enrichedQuery "impact of remote work"
        (clarificationAnswersOf (" SKIP ")) = "impact of remote work"
    ∧ enrichedQuery "impact of remote work"
        (clarificationAnswersOf ("focus on 2024"))
        = "Original query: " ++ "impact of remote work"
          ++ "\n\nAdditional context from user:\n" ++ "focus on 2024" :=
  ⟨(skip_and_enrichment "impact of remote work" (" SKIP ") (by decide)).1 (by decide),
   ((skip_and_enrichment "impact of remote work" ("focus on 2024")
      (by decide)).2 (by decide)).1⟩

/-- C5: executing a plan of `N` items of which `K` invocations fail yields
exactly `N − K` results, for every failure pattern and every completion
order (every permutation of the per-item outcomes), and an all-fail batch
yields the empty list as a valid outcome. -/
theorem search_executor_partial_failure (plan : WebSearchPlan)
    (outcomes completed : List (Option String))
    (hlen : outcomes.length = plan.searches.length)
    (hperm : completed.Perm outcomes) :
    (perform_searches completed).length
        = plan.searches.length - outcomes.countP (fun r => r.isNone)
    ∧ ((∀ r ∈ outcomes, r = none) → perform_searches completed = []) := by
  constructor
  · calc (perform_searches completed).length
        = completed.countP (fun r => r.isSome) := length_filterMap_id _
      _ = outcomes.countP (fun r => r.isSome) := hperm.countP_eq _
      _ = outcomes.length - outcomes.countP (fun r => r.isNone) := countP_isSome_sub _
      _ = plan.searches.length - outcomes.countP (fun r => r.isNone) := by rw [hlen]
  · intro hall
    exact filterMap_id_all_none completed
      (fun r hr => hall r (hperm.mem_iff.mp hr))

/-- Witness for C5: a 3-item plan with outcomes (success, failure, success)
delivered in a different completion order yields 2 results; a 1-item
all-fail batch yields the empty list. -/
theorem search_executor_partial_failure_witness :
    (perform_searches [some ("b"), some ("a"), none]).length
        = ({ searches := [⟨"r1", "q1"⟩, ⟨"r2", "q2"⟩, ⟨"r3", "q3"⟩] : WebSearchPlan}).searches.length
          - ([some ("a"), none, some ("b")].countP (fun r => r.isNone))
    ∧ perform_searches [none] = [] :=
  ⟨(search_executor_partial_failure
      ({ searches := [⟨"r1", "q1"⟩, ⟨"r2", "q2"⟩, ⟨"r3", "q3"⟩] })
      [some ("a"), none, some ("b")] [some ("b"), some ("a"), none]
      (by decide) (by decide)).1,
   (search_executor_partial_failure ({ searches := [⟨"r", "q"⟩] })
      [none] [none] (by decide) (by decide)).2 (by decide)⟩

/-- C6: both prompt views of the accumulated search results depend on at
most the first 8 results (the evaluation view joins the first 8, the
refinement-planning view the first 5), the embedded text is hard-capped at
5000 characters for the evaluation context and 3000 characters for the
refinement-planning context, and the canonical accumulated sequence is
never truncated (each recorded value of `all_search_results` is a prefix of
the next). -/
theorem prompt_views_lossy_projections (q : String) (rep : ReportData)
    (evaluation : EvaluationResult) (xs : List String) (o : RunOracle)
    (q' c' : String) :
    evaluate_input q rep xs = evaluate_input q rep (xs.take 8)
    ∧ (strSlice (evalSearchSummary xs) 5000).length ≤ 5000
    ∧ refinement_input q evaluation xs = refinement_input q evaluation (xs.take 8)
    ∧ (strSlice (refinementExistingSummary xs) 3000).length ≤ 3000
    ∧ List.Chain' (fun a b => a <+: b)
        (ResearchManager.run o q' c').resultsHistory := by
  refine ⟨?_, ?_, ?_, ?_, ?_⟩
  · simp [evaluate_input, evalSearchSummary, List.take_take]
  · simp only [strSlice, String.length_mk, List.length_take]
    omega
  · simp [refinement_input, refinementExistingSummary, List.take_take]
  · simp only [strSlice, String.length_mk, List.length_take]
    omega
  · exact (run_resultsHistory_chain o q' c').imp
      (fun a b hab => by obtain ⟨i, hb⟩ := hab; exact ⟨_, hb.symm⟩)

/-- C8 (amended): over one run the recorded values of `all_search_results`
form a chain that is non-decreasing in length and append-only (each value a
prefix of the next); each step appends exactly the successful results of one
refinement batch, so the length strictly increases exactly when that batch
contributed at least one successful result (and stays equal when every
invocation of the batch failed, even for a non-empty plan). -/
theorem results_monotone_amended (o : RunOracle) (q c : String) :
    List.Chain' (fun a b => a.length ≤ b.length)
        (ResearchManager.run o q c).resultsHistory
    ∧ List.Chain' (fun a b => a <+: b)
        (ResearchManager.run o q c).resultsHistory
    ∧ List.Chain' (fun a b => ∃ i, b = a ++ perform_searches (o.refineOutcomes i))
        (ResearchManager.run o q c).resultsHistory
    ∧ List.Chain' (fun a b => a.length < b.length ∨ a = b)
        (ResearchManager.run o q c).resultsHistory := by
  have hch := run_resultsHistory_chain o q c
  refine ⟨hch.imp ?_, hch.imp ?_, hch, hch.imp ?_⟩
  · intro a b hab
    obtain ⟨i, hb⟩ := hab
    subst hb
    simp
  · intro a b hab
    obtain ⟨i, hb⟩ := hab
    exact ⟨_, hb.symm⟩
  · intro a b hab
    obtain ⟨i, hb⟩ := hab
    subst hb
    cases hres : perform_searches (o.refineOutcomes i) with
    | nil => right; simp
    | cons x t => left; simp [hres]

/-- Counterexample to C8 as stated: in this run both REFINE phases execute a
non-empty (one-item) refinement plan, yet every refinement search fails, so
the accumulated results sequence stays at length 1 the whole run and never
strictly increases. -/
theorem results_strict_increase_counterexample :
    oracleRefineAllFail.refinePlanOutcome 1 = Except.ok planA
    ∧ planA.searches.length = 1
    ∧ Event.status ("Executing 1 additional searches...")
        ∈ (ResearchManager.run oracleRefineAllFail "q" "").events
    ∧ (ResearchManager.run oracleRefineAllFail "q" "").resultsHistory
        = [["a"], ["a"], ["a"]] := by
  refine ⟨rfl, rfl, by decide, by decide⟩

/-- C1: no run ever performs more than `MAX_RESEARCH_ITERATIONS = 3` WRITE
calls; and when all three evaluations reject the draft, the run performs
exactly the three WRITE calls, emits the budget-exhaustion status event, and
proceeds to hand the iteration-3 report to the DELIVER phase. -/
theorem write_budget_and_exhaustion :
    (∀ (o : RunOracle) (q c : String),
        (ResearchManager.run o q c).writeIters.length ≤ MAX_RESEARCH_ITERATIONS)
    ∧ (∀ (o : RunOracle) (q c : String) (p : WebSearchPlan)
        (r1 r2 r3 : ReportData) (e1 e2 e3 : EvaluationResult)
        (p1 p2 : WebSearchPlan),
        o.planOutcome = Except.ok p →
        o.writeOutcome 1 = Except.ok r1 →
        o.writeOutcome 2 = Except.ok r2 →
        o.writeOutcome 3 = Except.ok r3 →
        o.evalOutcome 1 = Except.ok e1 →
        o.evalOutcome 2 = Except.ok e2 →
        o.evalOutcome 3 = Except.ok e3 →
        e1.is_acceptable = false →
        e2.is_acceptable = false →
        e3.is_acceptable = false →
        o.refinePlanOutcome 1 = Except.ok p1 →
        o.refinePlanOutcome 2 = Except.ok p2 →
        ((ResearchManager.run o q c).writeIters = [1, 2, 3]
          ∧ Event.status ("Max iterations reached. Proceeding with current report.")
              ∈ (ResearchManager.run o q c).events
          ∧ (ResearchManager.run o q c).emailArg = some r3)) := by
  constructor
  · intro o q c
    cases hplan : o.planOutcome with
    | error u => simp [ResearchManager.run, hplan]
    | ok p =>
      rw [run_writeIters_eq o q c p hplan]
      have hsub := runLoop_writeIters_sublist o
        (List.range' 1 MAX_RESEARCH_ITERATIONS)
        (perform_searches o.initialOutcomes) none none
      calc (runLoopOf o).writeIters.length
          ≤ (List.range' 1 MAX_RESEARCH_ITERATIONS).length := hsub.length_le
        _ = MAX_RESEARCH_ITERATIONS := by simp
  · intro o q c p r1 r2 r3 e1 e2 e3 p1 p2 hplan hw1 hw2 hw3 he1 he2 he3
      ha1 ha2 ha3 hp1 hp2
    have hraised : (runLoopOf o).raised = false := by
      simp [runLoopOf, MAX_RESEARCH_ITERATIONS, List.range', runLoop,
        hw1, hw2, hw3, he1, he2, he3, ha1, ha2, ha3, hp1, hp2]
    have hwit : (runLoopOf o).writeIters = [1, 2, 3] := by
      simp [runLoopOf, MAX_RESEARCH_ITERATIONS, List.range', runLoop,
        hw1, hw2, hw3, he1, he2, he3, ha1, ha2, ha3, hp1, hp2]
    have hrep : (runLoopOf o).report = some r3 := by
      simp [runLoopOf, MAX_RESEARCH_ITERATIONS, List.range', runLoop,
        hw1, hw2, hw3, he1, he2, he3, ha1, ha2, ha3, hp1, hp2]
    have hmem : Event.status ("Max iterations reached. Proceeding with current report.")
        ∈ (runLoopOf o).events := by
      simp [runLoopOf, MAX_RESEARCH_ITERATIONS, List.range', runLoop,
        hw1, hw2, hw3, he1, he2, he3, ha1, ha2, ha3, hp1, hp2]
    refine ⟨?_, ?_, ?_⟩
    · rw [run_writeIters_eq o q c p hplan]
      exact hwit
    · exact run_mem_of_loop_mem o q c p hplan _ hmem
    · exact run_emailArg_eq o q c p r3 hplan hraised hrep

/-- Witness for C1: with an oracle whose evaluator rejects every draft, the
run writes exactly three times, announces the exhausted budget, and still
delivers the third report. -/
theorem write_budget_and_exhaustion_witness :
    (ResearchManager.run oracleAllBad "q" "").writeIters = [1, 2, 3]
    ∧ Event.status ("Max iterations reached. Proceeding with current report.")
        ∈ (ResearchManager.run oracleAllBad "q" "").events
    ∧ (ResearchManager.run oracleAllBad "q" "").emailArg = some repA :=
  write_budget_and_exhaustion.2 oracleAllBad "q" "" planA repA repA repA
    evalBad evalBad evalBad planA planA rfl rfl rfl rfl rfl rfl rfl rfl rfl
    rfl rfl rfl

/-- Counterexample to C2 as stated: in this run the e-mail delivery fails,
and the run aborts: the exception propagates, no status event surfaces the
failure (the last event is the ordinary pre-delivery status), and neither
the `report` nor the `follow_up` terminal event is emitted. -/
theorem delivery_failure_counterexample :
    (ResearchManager.run oracleEmailFail "q" "").outcome = Outcome.raised
    ∧ (ResearchManager.run oracleEmailFail "q" "").events.filter Event.isReport = []
    ∧ (ResearchManager.run oracleEmailFail "q" "").events.filter Event.isFollowUp = []
    ∧ (ResearchManager.run oracleEmailFail "q" "").events.getLast?
        = some (Event.status ("Sending report via email...")) := by
  decide

/-- C2 (amended): a DeliveryTool failure IS fatal to the run: the exception
propagates out of `_send_email` (which has no try/except), the run ends as
raised, and the terminal `report` and `follow_up` events are never emitted
(nor is any failure status event). -/
theorem delivery_failure_amended (o : RunOracle) (q c : String)
    (hmail : o.emailOk = false) :
    (ResearchManager.run o q c).outcome = Outcome.raised
    ∧ (ResearchManager.run o q c).events.filter Event.isReport = []
    ∧ (ResearchManager.run o q c).events.filter Event.isFollowUp = [] := by
  have houtcome : (ResearchManager.run o q c).outcome = Outcome.raised := by
    cases hplan : o.planOutcome with
    | error u => simp [ResearchManager.run, hplan]
    | ok p =>
      cases hr : (runLoopOf o).raised with
      | true => simp [ResearchManager.run, hplan, hr]
      | false =>
        cases hrep : (runLoopOf o).report with
        | none => simp [ResearchManager.run, hplan, hr, hrep]
        | some rep => simp [ResearchManager.run, hplan, hr, hrep, hmail]
  exact ⟨houtcome, (run_no_terminal_of_raised o q c houtcome).1,
    (run_no_terminal_of_raised o q c houtcome).2⟩

/-- Witness for the amended C2 at a concrete failing-delivery oracle. -/
theorem delivery_failure_amended_witness :
    (ResearchManager.run oracleEmailFail "q2" "").outcome = Outcome.raised
    ∧ (ResearchManager.run oracleEmailFail "q2" "").events.filter Event.isReport = []
    ∧ (ResearchManager.run oracleEmailFail "q2" "").events.filter Event.isFollowUp = [] :=
  delivery_failure_amended oracleEmailFail "q2" "" rfl

/-- C3: if the WRITE of iteration `i` succeeds and its evaluation is
acceptable, then whenever the run reaches iteration `i` it emits the success
status event, performs no WRITE for iteration `i + 1` (nor any later one),
and iteration `i`'s report becomes final — it is the one handed to DELIVER. -/
theorem acceptance_exits_loop (o : RunOracle) (q c : String) (i : Nat)
    (rep : ReportData) (e : EvaluationResult)
    (hw : o.writeOutcome i = Except.ok rep)
    (he : o.evalOutcome i = Except.ok e)
    (ha : e.is_acceptable = true)
    (hi : i ∈ (ResearchManager.run o q c).writeIters) :
    Event.status ("Report meets quality standards!")
        ∈ (ResearchManager.run o q c).events
    ∧ (i + 1) ∉ (ResearchManager.run o q c).writeIters
    ∧ (∀ j, i < j → j ∉ (ResearchManager.run o q c).writeIters)
    ∧ (ResearchManager.run o q c).emailArg = some rep := by
  cases hplan : o.planOutcome with
  | error u => simp [ResearchManager.run, hplan] at hi
  | ok p =>
    rw [run_writeIters_eq o q c p hplan] at hi
    have hpair : List.Pairwise (fun a b => a < b)
        (List.range' 1 MAX_RESEARCH_ITERATIONS) := by decide
    obtain ⟨h1, h2, h3, h4⟩ := runLoop_accept o i rep e hw he ha
      (List.range' 1 MAX_RESEARCH_ITERATIONS) hpair
      (perform_searches o.initialOutcomes) none none hi
    refine ⟨run_mem_of_loop_mem o q c p hplan _ h1, ?_, ?_, ?_⟩
    · rw [run_writeIters_eq o q c p hplan]
      exact h2 (i + 1) (by omega)
    · intro j hj
      rw [run_writeIters_eq o q c p hplan]
      exact h2 j hj
    · exact run_emailArg_eq o q c p rep hplan h4 h3

/-- Witness for C3: with an oracle whose first evaluation accepts, the run
writes once, announces success, never writes iteration 2, and delivers the
first report. -/
theorem acceptance_exits_loop_witness :
    Event.status ("Report meets quality standards!")
        ∈ (ResearchManager.run oracleGood "q" "").events
    ∧ (2 : Nat) ∉ (ResearchManager.run oracleGood "q" "").writeIters
    ∧ (ResearchManager.run oracleGood "q" "").emailArg = some repA :=
  ⟨(acceptance_exits_loop oracleGood "q" "" 1 repA evalGood rfl rfl rfl
      (by decide)).1,
   (acceptance_exits_loop oracleGood "q" "" 1 repA evalGood rfl rfl rfl
      (by decide)).2.1,
   (acceptance_exits_loop oracleGood "q" "" 1 repA evalGood rfl rfl rfl
      (by decide)).2.2.2⟩

/-- Counterexample to C7 as stated: in this session the orchestrator's
`report` and `follow_up` events are both presented, yet the session's phase
after the presentation is `idle`, not `done` (the `follow_up` handler sets
`state["phase"] = "idle"`). -/
theorem done_phase_counterexample :
    Event.report (repA.markdown_report)
        ∈ (ResearchManager.run oracleGood "urban housing" "").events
    ∧ Event.followUp (repA.follow_up_questions)
        ∈ (ResearchManager.run oracleGood "urban housing" "").events
    ∧ (handleSubmit oracleGood ["q1", "q2", "q3"] "skip"
        { phase := Phase.clarifying, query := some ("urban housing"),
          questions := some (["q1", "q2", "q3"]) }).phase = Phase.idle
    ∧ Phase.idle ≠ Phase.done := by
  decide

/-- C7 (amended): presenting the `report` event moves the session to `done`
and presenting the subsequent `follow_up` event moves it to `idle`, so a
fully presented run leaves the session `idle`; the `done` phase is only the
transient state between the two terminal events, and a non-empty message
arriving in the `done` phase is re-dispatched exactly as if the phase were
`idle`, yielding phase `clarifying`. -/
theorem session_after_presentation_amended (o : RunOracle) (qs : List String)
    (msg : String) (st : SessionState) (s : String) (l : List String)
    (hmsg : pyStrip msg ≠ "") (hdone : st.phase = Phase.done) :
    (processUpdate st (Event.report s)).phase = Phase.done
    ∧ (processUpdate st (Event.followUp l)).phase = Phase.idle
    ∧ handleSubmit o qs msg st
        = handleSubmit o qs msg { st with phase := Phase.idle }
    ∧ (handleSubmit o qs msg st).phase = Phase.clarifying := by
  refine ⟨rfl, rfl, ?_, ?_⟩
  · simp [handleSubmit, hmsg, hdone]
  · simp [handleSubmit, handleSubmitCore, hmsg, hdone]

/-- Witness for the amended C7: a fresh non-empty message in the `done`
phase lands the session in `clarifying`, exactly as from `idle`. -/
theorem session_after_presentation_witness :
    (handleSubmit oracleGood ["a"] "new topic"
        { phase := Phase.done, query := some ("old"), questions := none }).phase
      = Phase.clarifying :=
  (session_after_presentation_amended oracleGood ["a"] "new topic"
    { phase := Phase.done, query := some ("old"), questions := none } "x" []
    (by decide) rfl).2.2.2

/-- Counterexample to C9 as stated: in this run the PLAN call fails; the
exception propagates and the run terminates, but no error status event is
emitted — the event stream is exactly the two ordinary pre-failure statuses. -/
theorem reasoning_failure_counterexample :
    (ResearchManager.run oraclePlanFail "q" "").events
        = [Event.status ("[Trace](https://platform.openai.com/traces/trace?trace_id=t)"),
           Event.status ("Planning research strategy...")]
    ∧ (ResearchManager.run oraclePlanFail "q" "").outcome = Outcome.raised := by
  decide

/-- C9 (amended): a ReasoningService failure in PLAN, WRITE, EVALUATE or
REFINE planning is fatal to that phase: it propagates up without retry and
the run terminates by raising — the event stream simply ends at the last
pre-failure status, with no error status event, no terminal events and no
delivery. -/
theorem reasoning_failure_amended (o : RunOracle) (q c : String) :
    (o.planOutcome = Except.error () →
        ((ResearchManager.run o q c).events
            = [Event.status ("[Trace](https://platform.openai.com/traces/trace?trace_id="
                ++ o.traceId ++ ")"),
               Event.status ("Planning research strategy...")]
          ∧ (ResearchManager.run o q c).outcome = Outcome.raised
          ∧ (ResearchManager.run o q c).writeIters = []
          ∧ (ResearchManager.run o q c).emailArg = none))
    ∧ (∀ i, i ∈ (ResearchManager.run o q c).writeIters →
        o.writeOutcome i = Except.error () →
        ((ResearchManager.run o q c).outcome = Outcome.raised
          ∧ (ResearchManager.run o q c).events.filter Event.isReport = []
          ∧ (ResearchManager.run o q c).events.filter Event.isFollowUp = []
          ∧ (ResearchManager.run o q c).emailArg = none))
    ∧ (∀ i rep, i ∈ (ResearchManager.run o q c).writeIters →
        o.writeOutcome i = Except.ok rep →
        o.evalOutcome i = Except.error () →
        ((ResearchManager.run o q c).outcome = Outcome.raised
          ∧ (ResearchManager.run o q c).events.filter Event.isReport = []
          ∧ (ResearchManager.run o q c).events.filter Event.isFollowUp = []
          ∧ (ResearchManager.run o q c).emailArg = none))
    ∧ (∀ i rep e, i ∈ (ResearchManager.run o q c).writeIters →
        o.writeOutcome i = Except.ok rep →
        o.evalOutcome i = Except.ok e →
        e.is_acceptable = false →
        i < MAX_RESEARCH_ITERATIONS →
        o.refinePlanOutcome i = Except.error () →
        ((ResearchManager.run o q c).outcome = Outcome.raised
          ∧ (ResearchManager.run o q c).events.filter Event.isReport = []
          ∧ (ResearchManager.run o q c).events.filter Event.isFollowUp = []
          ∧ (ResearchManager.run o q c).emailArg = none)) := by
  refine ⟨?_, ?_, ?_, ?_⟩
  · intro h
    refine ⟨by simp [ResearchManager.run, h], by simp [ResearchManager.run, h],
      by simp [ResearchManager.run, h], by simp [ResearchManager.run, h]⟩
  · intro i hi hwe
    cases hplan : o.planOutcome with
    | error u => simp [ResearchManager.run, hplan] at hi
    | ok p =>
      rw [run_writeIters_eq o q c p hplan] at hi
      have hfail := runLoop_fail o i (List.range' 1 MAX_RESEARCH_ITERATIONS)
        (perform_searches o.initialOutcomes) none none hi
      have hraised : (runLoopOf o).raised = true := hfail.1 hwe
      obtain ⟨ho, hemail⟩ := run_raised_of_loop o q c p hplan hraised
      exact ⟨ho, (run_no_terminal_of_raised o q c ho).1,
        (run_no_terminal_of_raised o q c ho).2, hemail⟩
  · intro i rep hi hwok hee
    cases hplan : o.planOutcome with
    | error u => simp [ResearchManager.run, hplan] at hi
    | ok p =>
      rw [run_writeIters_eq o q c p hplan] at hi
      have hfail := runLoop_fail o i (List.range' 1 MAX_RESEARCH_ITERATIONS)
        (perform_searches o.initialOutcomes) none none hi
      have hraised : (runLoopOf o).raised = true := hfail.2.1 rep hwok hee
      obtain ⟨ho, hemail⟩ := run_raised_of_loop o q c p hplan hraised
      exact ⟨ho, (run_no_terminal_of_raised o q c ho).1,
        (run_no_terminal_of_raised o q c ho).2, hemail⟩
  · intro i rep e hi hwok heok hacc hlt hrpe
    cases hplan : o.planOutcome with
    | error u => simp [ResearchManager.run, hplan] at hi
    | ok p =>
      rw [run_writeIters_eq o q c p hplan] at hi
      have hfail := runLoop_fail o i (List.range' 1 MAX_RESEARCH_ITERATIONS)
        (perform_searches o.initialOutcomes) none none hi
      have hraised : (runLoopOf o).raised = true :=
        hfail.2.2 rep e hwok heok hacc hlt hrpe
      obtain ⟨ho, hemail⟩ := run_raised_of_loop o q c p hplan hraised
      exact ⟨ho, (run_no_terminal_of_raised o q c ho).1,
        (run_no_terminal_of_raised o q c ho).2, hemail⟩

/-- Witness for the amended C9 at a concrete plan-failure oracle. -/
theorem reasoning_failure_amended_witness :
    (ResearchManager.run oraclePlanFail "q2" "").outcome = Outcome.raised
    ∧ (ResearchManager.run oraclePlanFail "q2" "").writeIters = []
    ∧ (ResearchManager.run oraclePlanFail "q2" "").emailArg = none :=
  ⟨((reasoning_failure_amended oraclePlanFail "q2" "").1 rfl).2.1,
   ((reasoning_failure_amended oraclePlanFail "q2" "").1 rfl).2.2.1,
   ((reasoning_failure_amended oraclePlanFail "q2" "").1 rfl).2.2.2⟩

/-- C10: the DELIVER phase never dereferences an absent report: the loop
body runs at least once (whenever the plan succeeds, WRITE is invoked on
iteration 1 unconditionally), so after a normal loop exit the `report`
variable always holds a report. -/
theorem deliver_report_not_none (o : RunOracle) (q c : String) :
    (ResearchManager.run o q c).noneDeref = false
    ∧ (∀ p, o.planOutcome = Except.ok p →
        1 ∈ (ResearchManager.run o q c).writeIters) := by
  constructor
  · cases hplan : o.planOutcome with
    | error u => simp [ResearchManager.run, hplan]
    | ok p =>
      cases hr : (runLoopOf o).raised with
      | true => simp [ResearchManager.run, hplan, hr]
      | false =>
        have hsome := runLoop_report_isSome o
          (List.range' 1 MAX_RESEARCH_ITERATIONS)
          (perform_searches o.initialOutcomes) none none (by decide) hr
        obtain ⟨rep, hrep⟩ := Option.isSome_iff_exists.mp hsome
        have hrep' : (runLoopOf o).report = some rep := hrep
        cases hmail : o.emailOk with
        | true => simp [ResearchManager.run, hplan, hr, hrep', hmail]
        | false => simp [ResearchManager.run, hplan, hr, hrep', hmail]
  · intro p hplan
    rw [run_writeIters_eq o q c p hplan]
    exact runLoop_head_mem o 1 [2, 3] (perform_searches o.initialOutcomes) none none

/-- Witness for C10 at a concrete oracle: the report-absent branch is not
taken and iteration 1 did write. -/
theorem deliver_report_not_none_witness :
    (ResearchManager.run oracleGood "q" "").noneDeref = false
    ∧ 1 ∈ (ResearchManager.run oracleGood "q" "").writeIters :=
  ⟨(deliver_report_not_none oracleGood "q" "").1,
   (deliver_report_not_none oracleGood "q" "").2 planA rfl⟩
